import Mathlib

/-!
Shallow embedding of the ip-worker request core (src/index.ts):
the address classifier (`isIPv4`, `processIPAddress`), the field
projector (`getRequestedFields`), and the merged attribute dictionary
built by the root handler (`availableData`).

JavaScript values that can appear in the attribute dictionary are
modelled by `Value` (string, number, boolean, null); a JS object of
unknown shape is modelled as a function `String → Option Value`
(`none` = the key is not an own property).  The projector's output
object is modelled as an ordered association list whose entries carry
`Option Value` (`none` = the key is present but undefined, as in the
default branch when `availableData` lacks the key).
-/

/-- A JSON-representable JavaScript value (string, number, boolean, null). -/
inductive Value where
  | str (s : String)
  | num (n : Int)
  | bool (b : Bool)
  | null
  deriving DecidableEq, Repr

/-- An attribute dictionary: a JS object of unknown shape, seen through
property lookup. `none` means the key is not an own property. -/
abbrev AttrDict := String → Option Value

/-- An output document: the object built by `getRequestedFields`, as an
ordered list of (key, value) entries; a `none` value is JS `undefined`. -/
abbrev Doc := List (String × Option Value)

/-- Splits a character list on a separator character, like JS
`String.prototype.split` with a one-character separator:
`splitOnChar ',' "a,,b" = ["a", "", "b"]` and `splitOnChar ',' "" = [""]`. -/
def splitOnChar (sep : Char) : List Char → List (List Char)
  | [] => [[]]
  | c :: rest =>
    let r := splitOnChar sep rest
    if c = sep then [] :: r else (c :: r.headI) :: r.tail

/-- One group of the IPv4 literal pattern: `\d{1,3}` — one to three digits. -/
def isDigitGroup (g : List Char) : Bool :=
  decide (1 ≤ g.length) && decide (g.length ≤ 3) && g.all Char.isDigit

/-- `isIPv4` from src/index.ts: tests the string against the regex
`^(\d{1,3}\.){3}\d{1,3}$` — exactly four dot-separated groups of one to
three digits each, with no 0–255 range validation. -/
def isIPv4 (ip : String) : Bool :=
  let groups := splitOnChar '.' ip.data
  groups.length == 4 && groups.all isDigitGroup

/-- The `{ip, ipv4, ipv6, ipVersion}` quadruple returned by
`processIPAddress`. -/
structure IPData where
  ip : Value
  ipv4 : Value
  ipv6 : Value
  ipVersion : Value
  deriving DecidableEq, Repr

/-- `processIPAddress` from src/index.ts: classify the raw IP string as
IPv4 or IPv6 and fill the quadruple accordingly. -/
def processIPAddress (ip : String) : IPData :=
  if isIPv4 ip then
    { ip := .str ip, ipv4 := .str ip, ipv6 := .null, ipVersion := .num 4 }
  else
    { ip := .str ip, ipv4 := .null, ipv6 := .str ip, ipVersion := .num 6 }

/-- Whitespace trimming as in JS `String.prototype.trim`, at the level of
character lists: drop whitespace from both ends. -/
def trimChars (l : List Char) : List Char :=
  ((l.dropWhile Char.isWhitespace).reverse.dropWhile Char.isWhitespace).reverse

/-- The requested-field parsing step of `getRequestedFields`:
`fieldsParam.split(',').map(f => f.trim()).filter(f => f.length > 0)`. -/
def parseFields (fp : String) : List String :=
  (((splitOnChar ',' fp.data).map (fun g => String.mk (trimChars g))).filter
    (fun f => f.length > 0))

/-- First-match lookup in an output document (JS property access on the
result object, whose keys are unique by construction). `none` = key
absent, `some none` = key present with value `undefined`. -/
def docGet : Doc → String → Option (Option Value)
  | [], _ => none
  | (k2, v) :: rest, k => if k2 = k then some v else docGet rest k

/-- JS assignment `result[k] = v`: overwrite the existing entry in place
if the key exists (keys are unique in the documents we build), otherwise
append the new entry at the end (JS insertion order). -/
def docSet : Doc → String → Option Value → Doc
  | [], k, v => [(k, v)]
  | (k2, w) :: rest, k, v =>
    if k2 = k then (k, v) :: rest else (k2, w) :: docSet rest k v

/-- The loop of the selective branch of `getRequestedFields`: starting
from `{}`, for each requested field, copy the value over only if
`availableData.hasOwnProperty(field)`. -/
def buildSelective (available : AttrDict) (fields : List String) : Doc :=
  fields.foldl
    (fun res f => if (available f).isSome then docSet res f (available f) else res) []

/-- The nine keys of the default-mode response object, in source order. -/
def defaultFields : List String :=
  ["ip", "ipv4", "ipv6", "ipVersion", "country", "region", "asn",
   "asOrganization", "userAgent"]

/-- `getRequestedFields` from src/index.ts.  The guard `!fieldsParam` is
true when the parameter is absent (`undefined`) or the empty string
(both are falsy); then the fixed nine-key object is built, copying each
value through from `availableData` even when it is missing.  Otherwise
the parsed field list drives the selective copy. -/
def getRequestedFields (fieldsParam : Option String) (available : AttrDict) : Doc :=
  match fieldsParam with
  | none => defaultFields.map (fun k => (k, available k))
  | some fp =>
    if fp = "" then defaultFields.map (fun k => (k, available k))
    else buildSelective available (parseFields fp)

/-- Property lookup on the `{ip, ipv4, ipv6, ipVersion}` object, for use
as the base of the handler's spread. -/
def IPData.toDict (d : IPData) : AttrDict := fun k =>
  if k = "ip" then some d.ip
  else if k = "ipv4" then some d.ipv4
  else if k = "ipv6" then some d.ipv6
  else if k = "ipVersion" then some d.ipVersion
  else none

/-- The value stored under `userAgent` by the root handler:
`c.req.header('user-agent') || null`.  The `||` is a JS falsy coercion,
so both an absent header and a present-but-empty header value store
`null`. -/
def uaValue : Option String → Value
  | some s => if s = "" then .null else .str s
  | none => .null

/-- The merged attribute dictionary built by the root handler:
`{...ipData, ...cfData, userAgent: userAgent}` — later spreads override
earlier ones, and the `userAgent` property is written last. -/
def availableData (ip : String) (cf : AttrDict) (ua : Option String) : AttrDict :=
  fun k =>
    if k = "userAgent" then some (uaValue ua)
    else
      match cf k with
      | some v => some v
      | none => (processIPAddress ip).toDict k

/-- The keys of the `availableFields` catalog in `getDocumentation`
(src/index.ts), in source order. -/
def fieldCatalog : List String :=
  ["ip", "ipv4", "ipv6", "ipVersion", "asn", "asOrganization", "city",
   "continent", "country", "region", "regionCode", "timezone", "postalCode",
   "latitude", "longitude", "metroCode", "colo", "isEU", "userAgent"]

/-- A small concrete attribute dictionary used to exercise the theorems
on concrete inputs. -/
def sampleDict : AttrDict := fun k =>
  if k = "ip" then some (.str "203.0.113.1")
  else if k = "country" then some (.str "US")
  else none

/-- A concrete attribute dictionary holding every key of the field
catalog. -/
def catalogDict : AttrDict := fun k =>
  if k ∈ fieldCatalog then some (.str k) else none

/-- A `fields` query-parameter value requesting every key of the field
catalog. -/
def allFieldsParam : String :=
  String.intercalate "," fieldCatalog

/-- A concrete platform geolocation object: it deliberately carries an
`ipVersion` and a `userAgent` of its own, to exercise the override
behaviour of the handler's spread. -/
def sampleCf : AttrDict := fun k =>
  if k = "country" then some (.str "US")
  else if k = "ipVersion" then some (.num 9)
  else if k = "userAgent" then some (.str "platform-ua")
  else none

/-- The character list of one three-digit group, for concrete instances
of the IPv4-shape theorem. -/
def nines : List Char := ['9', '9', '9']

/-- The character list of the string `999.999.999.999`. -/
def ninesIPChars : List Char :=
  nines ++ '.' :: (nines ++ '.' :: (nines ++ '.' :: nines))

/-! ## Lemmas about the character-level split -/

/-- Splitting a separator-free list yields the list itself as the single
group. -/
theorem splitOnChar_no_sep (sep : Char) (g : List Char) (h : ∀ c ∈ g, c ≠ sep) :
    splitOnChar sep g = [g] := by
  induction g with
  | nil => rfl
  | cons c rest ih =>
    have hc : c ≠ sep := h c (List.mem_cons_self c rest)
    have hrest : ∀ x ∈ rest, x ≠ sep := fun x hx => h x (List.mem_cons_of_mem _ hx)
    simp [splitOnChar, hc, ih hrest]

/-- Splitting peels off a leading separator-free group followed by a
separator. -/
theorem splitOnChar_group_cons (sep : Char) (g rest : List Char)
    (h : ∀ c ∈ g, c ≠ sep) :
    splitOnChar sep (g ++ sep :: rest) = g :: splitOnChar sep rest := by
  induction g with
  | nil => simp [splitOnChar]
  | cons c g2 ih =>
    have hc : c ≠ sep := h c (List.mem_cons_self c g2)
    have hg2 : ∀ x ∈ g2, x ≠ sep := fun x hx => h x (List.mem_cons_of_mem _ hx)
    simp [splitOnChar, hc, ih hg2]

/-- A 1–3-digit group contains no dot. -/
theorem isDigitGroup_no_dot (g : List Char) (h : isDigitGroup g = true) :
    ∀ c ∈ g, c ≠ '.' := by
  intro c hc heq
  subst heq
  simp only [isDigitGroup, Bool.and_eq_true, List.all_eq_true, decide_eq_true_eq] at h
  exact absurd (h.2 '.' hc) (by decide)

/-- A string made of four dot-separated 1–3-digit groups passes the
IPv4 literal test. -/
theorem isIPv4_groups (g1 g2 g3 g4 : List Char)
    (h1 : isDigitGroup g1 = true) (h2 : isDigitGroup g2 = true)
    (h3 : isDigitGroup g3 = true) (h4 : isDigitGroup g4 = true) :
    isIPv4 (String.mk (g1 ++ '.' :: (g2 ++ '.' :: (g3 ++ '.' :: g4)))) = true := by
  have e : splitOnChar '.' (g1 ++ '.' :: (g2 ++ '.' :: (g3 ++ '.' :: g4))) =
      [g1, g2, g3, g4] := by
    rw [splitOnChar_group_cons _ _ _ (isDigitGroup_no_dot g1 h1),
        splitOnChar_group_cons _ _ _ (isDigitGroup_no_dot g2 h2),
        splitOnChar_group_cons _ _ _ (isDigitGroup_no_dot g3 h3),
        splitOnChar_no_sep _ _ (isDigitGroup_no_dot g4 h4)]
  simp [isIPv4, e, h1, h2, h3, h4]

/-! ## Lemmas about documents and the selective-copy loop -/

/-- Lookup after JS assignment: the assigned key reads back the assigned
value; other keys are unaffected. -/
theorem docGet_docSet (doc : Doc) (k : String) (v : Option Value) (k2 : String) :
    docGet (docSet doc k v) k2 = if k = k2 then some v else docGet doc k2 := by
  induction doc with
  | nil => simp [docSet, docGet]
  | cons p rest ih =>
    obtain ⟨k3, w⟩ := p
    by_cases h3 : k3 = k <;> by_cases hk : k = k2 <;>
      simp_all [docSet, docGet]

/-- Invariant of the selective-copy loop of `getRequestedFields`:
a key reads back the dictionary value if it is a requested field that is
an own property, and otherwise whatever the accumulator held. -/
theorem docGet_selective_foldl (d : AttrDict) (toks : List String) (acc : Doc)
    (k : String) :
    docGet (toks.foldl
        (fun res f => if (d f).isSome then docSet res f (d f) else res) acc) k =
      if k ∈ toks ∧ (d k).isSome then some (d k) else docGet acc k := by
  induction toks generalizing acc with
  | nil => simp
  | cons t rest ih =>
    rw [List.foldl_cons, ih]
    by_cases ht : k = t
    · subst ht
      by_cases hs : (d k).isSome
      · by_cases hr : k ∈ rest <;> simp [hr, hs, docGet_docSet]
      · simp [hs]
    · by_cases hs : (d t).isSome
      · simp [hs, docGet_docSet, ht, Ne.symm ht]
      · simp [hs, ht]

/-- Characterization of the selective branch: the built document has a
key iff it was requested and is an own property of the dictionary, and
then carries the dictionary's value. -/
theorem docGet_buildSelective (d : AttrDict) (toks : List String) (k : String) :
    docGet (buildSelective d toks) k =
      if k ∈ toks ∧ (d k).isSome then some (d k) else none := by
  unfold buildSelective
  rw [docGet_selective_foldl]
  rfl

/-! ## The claims -/

/-- C1: in selective mode, a requested field appears in the output iff
`available` has it as an own property, with its value (including null)
copied verbatim; a requested field not in `available` is silently
dropped — no error, no placeholder. -/
theorem c1_selective_field (fp : String) (d : AttrDict) (f : String)
    (hfp : fp ≠ "") (hf : f ∈ parseFields fp) :
    docGet (getRequestedFields (some fp) d) f =
      if (d f).isSome then some (d f) else none := by
  simp only [getRequestedFields, if_neg hfp]
  rw [docGet_buildSelective]
  simp [hf]

/-- Witness for C1 at a concrete input: `bogusField` is requested but
absent from the dictionary, so the output has no such key. -/
theorem c1_selective_field_witness :
    ("bogusField" ∈ parseFields "ip, bogusField") ∧
      docGet (getRequestedFields (some "ip, bogusField") sampleDict) "bogusField" =
        (if (sampleDict "bogusField").isSome then some (sampleDict "bogusField")
         else none) :=
  ⟨by decide, c1_selective_field "ip, bogusField" sampleDict "bogusField"
    (by decide) (by decide)⟩

/-- C2: in default mode the output document has exactly the nine fixed
keys, in source order, each carrying the value `available` holds for it
(a missing value is copied through as a present-but-undefined entry
rather than the key being omitted). -/
theorem c2_default_fields (d : AttrDict) :
    (getRequestedFields none d).map Prod.fst = defaultFields ∧
      ∀ k ∈ defaultFields, docGet (getRequestedFields none d) k = some (d k) := by
  refine ⟨rfl, ?_⟩
  intro k hk
  fin_cases hk <;> rfl

/-- Witness for C2 at a concrete input: the default-mode output carries
the dictionary's `country` value. -/
theorem c2_default_fields_witness :
    ("country" ∈ defaultFields) ∧
      docGet (getRequestedFields none sampleDict) "country" =
        some (sampleDict "country") :=
  ⟨by decide, (c2_default_fields sampleDict).2 "country" (by decide)⟩

/-- C3: any string of exactly four dot-separated groups of one to three
digits (digits only, no 0–255 range check) is classified as IPv4:
`{ip: s, ipv4: s, ipv6: null, ipVersion: 4}`. -/
theorem c3_ipv4_shape (g1 g2 g3 g4 : List Char)
    (h1 : isDigitGroup g1 = true) (h2 : isDigitGroup g2 = true)
    (h3 : isDigitGroup g3 = true) (h4 : isDigitGroup g4 = true) :
    processIPAddress (String.mk (g1 ++ '.' :: (g2 ++ '.' :: (g3 ++ '.' :: g4)))) =
      { ip := .str (String.mk (g1 ++ '.' :: (g2 ++ '.' :: (g3 ++ '.' :: g4)))),
        ipv4 := .str (String.mk (g1 ++ '.' :: (g2 ++ '.' :: (g3 ++ '.' :: g4)))),
        ipv6 := .null, ipVersion := .num 4 } := by
  have hip := isIPv4_groups g1 g2 g3 g4 h1 h2 h3 h4
  simp [processIPAddress, hip]

/-- Witness for C3 at the concrete input `999.999.999.999`: numerically
invalid but syntactically matching, still classified as IPv4. -/
theorem c3_ipv4_shape_witness :
    isDigitGroup nines = true ∧
      processIPAddress (String.mk ninesIPChars) =
        { ip := .str (String.mk ninesIPChars), ipv4 := .str (String.mk ninesIPChars),
          ipv6 := .null, ipVersion := .num 4 } :=
  ⟨by decide, c3_ipv4_shape nines nines nines nines
    (by decide) (by decide) (by decide) (by decide)⟩

/-- C4: any string failing the IPv4 literal test (empty, IPv6 literals,
the sentinel `no IP`, ...) is classified as IPv6:
`{ip: s, ipv4: null, ipv6: s, ipVersion: 6}`. -/
theorem c4_non_ipv4 (s : String) (h : isIPv4 s = false) :
    processIPAddress s =
      { ip := .str s, ipv4 := .null, ipv6 := .str s, ipVersion := .num 6 } := by
  simp [processIPAddress, h]

/-- Witness for C4 at the concrete sentinel input `no IP`. -/
theorem c4_non_ipv4_witness :
    isIPv4 "no IP" = false ∧
      processIPAddress "no IP" =
        { ip := .str "no IP", ipv4 := .null, ipv6 := .str "no IP",
          ipVersion := .num 6 } :=
  ⟨by decide, c4_non_ipv4 "no IP" (by decide)⟩

/-- C5: a present-but-empty `fields` parameter is falsy and falls back to
the default projection, so it returns exactly the same document as an
absent parameter, for every dictionary. -/
theorem c5_empty_fields_default (d : AttrDict) :
    getRequestedFields (some "") d = getRequestedFields none d := rfl

/-- C6: field-selection parsing splits on commas, trims each piece and
drops empty pieces, preserving order and duplicates of the rest; in
particular `ip, city ,,timezone` parses to `ip, city, timezone`. -/
theorem c6_parse_fields :
    parseFields "ip, city ,,timezone" = ["ip", "city", "timezone"] ∧
      parseFields "b, a ,b" = ["b", "a", "b"] := by decide

/-- C7: two selective requests whose parsed token lists contain the same
names (order and duplicates aside) produce documents agreeing on every
key. -/
theorem c7_order_dup_irrelevant (d : AttrDict) (fp1 fp2 : String) (k : String)
    (h1 : fp1 ≠ "") (h2 : fp2 ≠ "")
    (h12 : ∀ t ∈ parseFields fp1, t ∈ parseFields fp2)
    (h21 : ∀ t ∈ parseFields fp2, t ∈ parseFields fp1) :
    docGet (getRequestedFields (some fp1) d) k =
      docGet (getRequestedFields (some fp2) d) k := by
  simp only [getRequestedFields, if_neg h1, if_neg h2]
  rw [docGet_buildSelective, docGet_buildSelective]
  by_cases hm : k ∈ parseFields fp1
  · have hm2 := h12 k hm
    simp [hm, hm2]
  · have hm2 : k ∉ parseFields fp2 := fun h => hm (h21 k h)
    simp [hm, hm2]

/-- Witness for C7 at concrete inputs: `ip,country` and `country, ip ,ip`
agree at the key `ip`. -/
theorem c7_order_dup_irrelevant_witness :
    (∀ t ∈ parseFields "ip,country", t ∈ parseFields "country, ip ,ip") ∧
      docGet (getRequestedFields (some "ip,country") sampleDict) "ip" =
        docGet (getRequestedFields (some "country, ip ,ip") sampleDict) "ip" :=
  ⟨by decide, c7_order_dup_irrelevant sampleDict "ip,country" "country, ip ,ip" "ip"
    (by decide) (by decide) (by decide) (by decide)⟩

/-- C8: round trip — when `available` holds every key of the field
catalog and the request asks for exactly the catalog, every catalog key
appears in the output with its value unchanged. -/
theorem c8_round_trip (fp : String) (d : AttrDict) (k : String)
    (h0 : fp ≠ "") (hparse : parseFields fp = fieldCatalog)
    (hall : ∀ j ∈ fieldCatalog, (d j).isSome) (hk : k ∈ fieldCatalog) :
    docGet (getRequestedFields (some fp) d) k = some (d k) := by
  simp only [getRequestedFields, if_neg h0]
  rw [docGet_buildSelective, hparse]
  simp [hk, hall k hk]

/-- Witness for C8 at a concrete input: requesting the whole catalog from
a dictionary holding all of it returns `isEU` unchanged. -/
theorem c8_round_trip_witness :
    parseFields allFieldsParam = fieldCatalog ∧
      docGet (getRequestedFields (some allFieldsParam) catalogDict) "isEU" =
        some (catalogDict "isEU") :=
  ⟨by decide, c8_round_trip allFieldsParam catalogDict "isEU"
    (by decide) (by decide) (by decide) (by decide)⟩

/-- C9: the classifier and the projector are total, pure functions of
their inputs — applying them twice yields identical results, and the
classifier always lands in one of its two well-formed result shapes
(no error outcome exists). -/
theorem c9_total_deterministic :
    ∀ (s : String) (fp : Option String) (d : AttrDict),
      processIPAddress s = processIPAddress s ∧
        getRequestedFields fp d = getRequestedFields fp d ∧
        (processIPAddress s =
            { ip := .str s, ipv4 := .str s, ipv6 := .null, ipVersion := .num 4 } ∨
          processIPAddress s =
            { ip := .str s, ipv4 := .null, ipv6 := .str s, ipVersion := .num 6 }) := by
  intro s fp d
  refine ⟨rfl, rfl, ?_⟩
  by_cases h : isIPv4 s = true
  · exact Or.inl (by simp [processIPAddress, h])
  · exact Or.inr (by simp [processIPAddress, h])

/-- C10, counterexample to the claim as stated: at a present-but-empty
user-agent header the code's `|| null` coerces the falsy empty string
to null, so the merged dictionary's `userAgent` does not hold the
header's value — it holds null. -/
theorem c10_ua_empty_counterexample :
    availableData "203.0.113.1" sampleCf (some "") "userAgent" =
        some Value.null ∧
      availableData "203.0.113.1" sampleCf (some "") "userAgent" ≠
        some (Value.str "") := by decide

/-- C10 (amended): in the merged dictionary
`{...ipData, ...cfData, userAgent}`, a platform-supplied key overrides
the classifier's value, and `userAgent` always holds the request header
value when that value is non-empty — and null when the header is absent
or empty — overriding any platform-supplied `userAgent`. -/
theorem c10_merge_override (ip : String) (cf : AttrDict) (ua : Option String)
    (k : String) (hk : (cf k).isSome) (hne : k ≠ "userAgent") :
    availableData ip cf ua k = cf k ∧
      availableData ip cf ua "userAgent" = some (uaValue ua) ∧
      (∀ s, ua = some s → s ≠ "" → uaValue ua = Value.str s) ∧
      uaValue none = Value.null ∧ uaValue (some "") = Value.null := by
  refine ⟨?_, ?_, ?_, rfl, rfl⟩
  · obtain ⟨v, hv⟩ := Option.isSome_iff_exists.mp hk
    simp [availableData, hne, hv]
  · simp [availableData]
  · intro s hs hne2
    subst hs
    simp [uaValue, hne2]

/-- Witness for C10 at a concrete input: the platform's `ipVersion`
overrides the classifier's, and the non-empty header user agent
overrides the platform's. -/
theorem c10_merge_override_witness :
    (sampleCf "ipVersion").isSome = true ∧
      availableData "203.0.113.1" sampleCf (some "TestUA") "ipVersion" =
        sampleCf "ipVersion" ∧
      availableData "203.0.113.1" sampleCf (some "TestUA") "userAgent" =
        some (uaValue (some "TestUA")) :=
  ⟨by decide,
    (c10_merge_override "203.0.113.1" sampleCf (some "TestUA") "ipVersion"
      (by decide) (by decide)).1,
    (c10_merge_override "203.0.113.1" sampleCf (some "TestUA") "ipVersion"
      (by decide) (by decide)).2.1⟩
